import Mathlib

/-!
Verification of the mini-CRM (SQLite revision, `crm3.sql.py`).

Strings from the Python source are embedded as `List Char` (`Str`), so that
Python's `str.strip`, `str.lower`, `in` (substring), `startswith`, `endswith`
become executable Lean functions.  Timestamps (`datetime.now` formatted to
minute granularity) are embedded as `Nat`, passed explicitly to each operation;
the wall clock is a parameter of every route handler.  SQLite tables become
lists of structures; `UPDATE ... WHERE` becomes `List.map` with an id test,
`DELETE ... WHERE` becomes `List.filter`.
-/

abbrev Str := List Char

/-- Coerce a Lean string literal to the `List Char` representation. -/
def str (s : String) : Str := s.data

/-- Python `str.lstrip()` (leading whitespace removal). -/
def lstrip (s : Str) : Str := s.dropWhile Char.isWhitespace

/-- Python `str.rstrip()` (trailing whitespace removal). -/
def rstrip (s : Str) : Str := (s.reverse.dropWhile Char.isWhitespace).reverse

/-- Python `str.strip()`. -/
def pyStrip (s : Str) : Str := rstrip (lstrip s)

/-- Python `str.lower()`. -/
def pyLower (s : Str) : Str := s.map Char.toLower

/-- Python truthiness fallback `a or b` for strings (empty string is falsy). -/
def pyOr (a b : Str) : Str := if a.isEmpty then b else a

/-- Python substring test `q in s`. -/
def py_in (q : Str) : Str → Bool
  | [] => q.isPrefixOf []
  | c :: s => q.isPrefixOf (c :: s) || py_in q s

/-- `norm_text` from crm3.sql.py line 231: `(s or '').strip().lower()`. -/
def norm_text (s : Str) : Str := pyLower (pyStrip s)

/-- The characters of `'http://'`. -/
def httpPref : Str := str "http://"

/-- The characters of `'https://'`. -/
def httpsPref : Str := str "https://"

/-- Scheme removal step of `norm_url` (lines 236-239):
`startswith('http://')` drops 7 characters, else `startswith('https://')`
drops 8. -/
def stripScheme (u : Str) : Str :=
  if httpPref.isPrefixOf u then u.drop 7
  else if httpsPref.isPrefixOf u then u.drop 8
  else u

/-- Trailing-slash removal step of `norm_url` (lines 240-241):
`if u.endswith('/'): u = u[:-1]`. -/
def stripSlash (u : Str) : Str :=
  if u.getLast? == some '/' then u.dropLast else u

/-- `norm_url` from crm3.sql.py lines 234-242. -/
def norm_url (u : Str) : Str := stripSlash (stripScheme (pyLower (pyStrip u)))

/-! ## Data model (tables of crm3.sql.py `ensure_storage`) -/

/-- A row of the `companies` table. -/
structure Company where
  id : Str
  type : Str
  owner : Str
  name : Str
  url : Str
  linkedin : Str
  email : Str
  contacted_email : Bool
  contacted_url : Bool
  contacted_linkedin : Bool
  status : Str
  created_at : Nat
  updated_at : Nat
deriving DecidableEq

/-- A row of the `notes` table. -/
structure Note where
  id : Str
  company_id : Str
  time : Nat
  text : Str
  starred : Bool
  category : Str
deriving DecidableEq

/-- The mutable database: `companies`, `notes` and `sources` tables.
A `sources` row is a `(company_id, source)` pair with that pair as primary
key. -/
structure Store where
  companies : List Company
  notes : List Note
  sources : List (Str × Str)
deriving DecidableEq

/-- The empty database. -/
def empty_store : Store := ⟨[], [], []⟩

/-- `prefs` table content used by the handlers. -/
structure Prefs where
  last_type : Str
  last_owner : Str
deriving DecidableEq

/-- `LEAD_STATUSES` (line 29). -/
def LEAD_STATUSES : List Str :=
  [str "New", str "Contacted", str "Qualified", str "Negotiation", str "Lost"]

/-- `PARTNER_STATUSES` (line 30). -/
def PARTNER_STATUSES : List Str :=
  [str "Onboarding", str "Active Project", str "Follow-up Needed",
   str "Paused", str "Source Partner"]

/-- `ALL_STATUSES` (line 31). -/
def ALL_STATUSES : List Str :=
  LEAD_STATUSES ++ PARTNER_STATUSES ++ [str "Past Client"]

/-- `TYPES` (line 32). -/
def TYPES : List Str :=
  [str "Marketing Agency", str "Agency", str "Direct Customer",
   str "Hosting Provider"]

/-- `OWNERS` (line 33). -/
def OWNERS : List Str := [str "Oskars", str "Shawn"]

/-! ## Operations (route handlers of crm3.sql.py) -/

/-- The duplicate scan shared by `add_company` (lines 1129-1135) and
`api_check_duplicate` (lines 1525-1529): one pass over the companies; per
record the name test runs first, then the URL test; the scan stops at the
first record passing either test.  The emptiness guards are Python
truthiness of the raw candidate strings. -/
def check_duplicate (name url_ : Str) : List Company → Option Company
  | [] => none
  | c :: rest =>
    if !name.isEmpty && (norm_text name == norm_text c.name) then some c
    else if !url_.isEmpty && (norm_url url_ == norm_url c.url) then some c
    else check_duplicate name url_ rest

/-- `INSERT OR IGNORE INTO sources(company_id, source)`: the pair is the
primary key, so an existing pair is kept untouched. -/
def insert_source (rows : List (Str × Str)) (cid s : Str) : List (Str × Str) :=
  if rows.contains (cid, s) then rows else rows ++ [(cid, s)]

/-- `UPDATE companies SET updated_at=? WHERE id=?`. -/
def touch_company (cs : List Company) (cid : Str) (now : Nat) : List Company :=
  cs.map fun c => if c.id == cid then { c with updated_at := now } else c

/-- Form fields posted to `/add`; a missing field and an empty field are both
the empty string (Python falsiness). `sources` is the parsed tag list. -/
structure AddForm where
  name : Str
  url : Str
  linkedin : Str
  email : Str
  type : Str
  owner : Str
  status : Str
  contacted_email : Bool
  contacted_url : Bool
  contacted_linkedin : Bool
  sources : List Str
  notes : Str
deriving DecidableEq

/-- `add_company` POST branch (lines 1122-1183).  `cid` and `nid` stand for
the two `uuid.uuid4()` draws, `now` for `datetime.now()`.  The result carries
`some existing_id` when the duplicate scan redirected (no write), `none` when
the company was inserted. -/
def add_company (st : Store) (prefs : Prefs) (form : AddForm)
    (cid nid : Str) (now : Nat) : Store × Option Str :=
  let name_in := pyStrip form.name
  let url_in := pyStrip form.url
  match check_duplicate name_in url_in st.companies with
  | some c => (st, some c.id)
  | none =>
    let payload : Company :=
      { id := cid
        type := pyOr form.type (pyOr prefs.last_type (TYPES.headD []))
        owner := pyOr form.owner (pyOr prefs.last_owner (OWNERS.headD []))
        name := name_in
        url := url_in
        linkedin := pyStrip form.linkedin
        email := pyStrip form.email
        contacted_email := form.contacted_email
        contacted_url := form.contacted_url
        contacted_linkedin := form.contacted_linkedin
        status := pyOr form.status (str "New")
        created_at := now
        updated_at := now }
    let companies := st.companies ++ [payload]
    let sources := form.sources.foldl (fun acc s => insert_source acc cid s) st.sources
    let first_note := pyStrip form.notes
    let notes :=
      if first_note.isEmpty then st.notes
      else st.notes ++ [{ id := nid, company_id := cid, time := now,
                          text := first_note, starred := false,
                          category := str "General" : Note }]
    (⟨companies, notes, sources⟩, none)

/-- Form fields posted to `/company/<cid>`; `none` is an absent field, which
`COALESCE(?, col)` turns into keeping the stored value. -/
structure UpdateForm where
  type : Option Str
  status : Option Str
  owner : Option Str
  contacted_email : Bool
  contacted_url : Bool
  contacted_linkedin : Bool
  sources : List Str
deriving DecidableEq

/-- `update_company` (lines 1211-1254): one `UPDATE companies` with
`COALESCE` on type/status/owner, unconditional contacted flags and
`updated_at`, then total replacement of the `sources` rows of `cid`. -/
def update_company (st : Store) (cid : Str) (form : UpdateForm) (now : Nat) :
    Store :=
  let companies := st.companies.map fun c =>
    if c.id == cid then
      { c with
        type := form.type.getD c.type
        status := form.status.getD c.status
        owner := form.owner.getD c.owner
        contacted_email := form.contacted_email
        contacted_url := form.contacted_url
        contacted_linkedin := form.contacted_linkedin
        updated_at := now }
    else c
  let kept := st.sources.filter fun p => !(p.1 == cid)
  let sources := form.sources.foldl (fun acc s => insert_source acc cid s) kept
  { st with companies := companies, sources := sources }

/-- `add_note` (lines 1256-1271): empty/whitespace text is a no-op; else the
note row is inserted and the parent's `updated_at` refreshed. -/
def add_note (st : Store) (cid note_raw category_raw : Str) (starred : Bool)
    (nid : Str) (now : Nat) : Store :=
  let note := pyStrip note_raw
  if note.isEmpty then st
  else
    let category := pyOr (pyStrip (pyOr category_raw (str "General"))) (str "General")
    { st with
      notes := st.notes ++ [{ id := nid, company_id := cid, time := now,
                              text := note, starred := starred,
                              category := category : Note }]
      companies := touch_company st.companies cid now }

/-- `toggle_star` (lines 1273-1284): the note is fetched by
`id=? AND company_id=?`; when absent nothing at all happens; when present its
`starred` flag is flipped and the parent's `updated_at` refreshed. -/
def toggle_star (st : Store) (cid nid : Str) (now : Nat) : Store :=
  match st.notes.find? (fun n => n.id == nid && n.company_id == cid) with
  | none => st
  | some row =>
    let new_val := !row.starred
    { st with
      notes := st.notes.map fun n =>
        if n.id == nid && n.company_id == cid then { n with starred := new_val }
        else n
      companies := touch_company st.companies cid now }

/-- `edit_note` (lines 1286-1303): `UPDATE notes ... WHERE id=? AND
company_id=?` (a no-op on the notes when unmatched) followed by an
unconditional `UPDATE companies SET updated_at=? WHERE id=?`. -/
def edit_note (st : Store) (cid nid text_raw category_raw : Str)
    (starred : Bool) (now : Nat) : Store :=
  let new_text := pyStrip text_raw
  let new_category := pyOr (pyStrip (pyOr category_raw (str "General"))) (str "General")
  { st with
    notes := st.notes.map fun n =>
      if n.id == nid && n.company_id == cid then
        { n with text := new_text, category := new_category, starred := starred }
      else n
    companies := touch_company st.companies cid now }

/-- `delete_note` (lines 1305-1313): `DELETE FROM notes WHERE id=? AND
company_id=?` followed by an unconditional parent `updated_at` refresh. -/
def delete_note (st : Store) (cid nid : Str) (now : Nat) : Store :=
  { st with
    notes := st.notes.filter fun n => !(n.id == nid && n.company_id == cid)
    companies := touch_company st.companies cid now }

/-- `delete_company` (lines 1401-1410). -/
def delete_company (st : Store) (cid : Str) : Store :=
  { companies := st.companies.filter fun c => !(c.id == cid)
    notes := st.notes.filter fun n => !(n.company_id == cid)
    sources := st.sources.filter fun p => !(p.1 == cid) }

/-- `mass_delete` (lines 1412-1427). -/
def mass_delete (st : Store) (ids : List Str) : Store :=
  { companies := st.companies.filter fun c => !(ids.contains c.id)
    notes := st.notes.filter fun n => !(ids.contains n.company_id)
    sources := st.sources.filter fun p => !(ids.contains p.1) }

/-- Result of the `/api/update_status` endpoint. -/
inductive ApiResult where
  | ok
  | invalid_status
  | not_found
deriving DecidableEq

/-- `api_update_status` (lines 1501-1517): membership in `ALL_STATUSES` is
checked before any database access; only then does the `UPDATE` run, and its
rowcount decides between ok and not-found. -/
def api_update_status (st : Store) (cid status : Str) (now : Nat) :
    Store × ApiResult :=
  if !(ALL_STATUSES.contains status) then (st, ApiResult.invalid_status)
  else
    let hit := st.companies.any fun c => c.id == cid
    let companies := st.companies.map fun c =>
      if c.id == cid then { c with status := status, updated_at := now } else c
    ({ st with companies := companies },
     if hit then ApiResult.ok else ApiResult.not_found)

/-! ## Read-side projections -/

/-- The filter of the `/board` route (line 1320): leads only. -/
def board_companies (st : Store) : List Company :=
  st.companies.filter fun c => LEAD_STATUSES.contains c.status

/-- The filter of the `/partners` route (line 1333): partner statuses only. -/
def partners_companies (st : Store) : List Company :=
  st.companies.filter fun c => PARTNER_STATUSES.contains c.status

/-- The six lowercased fields the list view searches (lines 1355-1362). -/
def fields (c : Company) : List Str :=
  [pyLower c.name, pyLower c.url, pyLower c.email,
   pyLower c.owner, pyLower c.type, pyLower c.status]

/-- Python `' '.join(...)`. -/
def joinSp : List Str → Str
  | [] => []
  | [f] => f
  | f :: rest => f ++ ' ' :: joinSp rest

/-- The haystack built by the list view's `match` closure. -/
def hay (c : Company) : Str := joinSp (fields c)

/-- The `match` closure of `list_view` (lines 1354-1363): substring test of
the query against the space-joined lowercased fields. -/
def match_fn (q : Str) (c : Company) : Bool := py_in q (hay c)

/-- The filtering step of `list_view` (lines 1345-1364): the query is
stripped and lowercased; a falsy query leaves the list untouched. -/
def list_filter (q_raw : Str) (items : List Company) : List Company :=
  let q := pyLower (pyStrip q_raw)
  if q.isEmpty then items else items.filter (match_fn q)

/-! ## CSV import (`import_csv`, lines 1430-1498) -/

/-- One parsed CSV row (after DictReader / headerless fallback). -/
structure CsvRow where
  name : Str
  url : Str
  email : Str
  linkedin : Str
  type : Str
  status : Str
  owner : Str
  notes : Str
deriving DecidableEq

/-- A row of `SELECT id, name, url FROM companies`, the shape kept in the
CSV loop variable named existing. -/
structure CompanyRef where
  id : Str
  name : Str
  url : Str
deriving DecidableEq

/-- The per-row duplicate scan of the import loop (lines 1462-1464): same
interleaved name-then-URL test as `check_duplicate`, returning the id. -/
def import_dup (name_in url_in : Str) : List CompanyRef → Option Str
  | [] => none
  | c :: rest =>
    if !name_in.isEmpty && (norm_text c.name == norm_text name_in) then some c.id
    else if !url_in.isEmpty && (norm_url c.url == norm_url url_in) then some c.id
    else import_dup name_in url_in rest

/-- The company payload built for an imported row (lines 1470-1481). -/
def import_payload (prefs : Prefs) (r : CsvRow) (cid : Str) (now : Nat) :
    Company :=
  { id := cid
    type := pyOr (pyStrip (pyOr r.type (pyOr prefs.last_type (TYPES.headD []))))
                 (TYPES.headD [])
    owner := pyOr (pyStrip (pyOr r.owner (pyOr prefs.last_owner (OWNERS.headD []))))
                  (OWNERS.headD [])
    name := pyStrip r.name
    url := pyStrip r.url
    linkedin := pyStrip r.linkedin
    email := pyStrip r.email
    contacted_email := false
    contacted_url := false
    contacted_linkedin := false
    status := pyOr (pyStrip (pyOr r.status (str "New"))) (str "New")
    created_at := now
    updated_at := now }

/-- The import loop (lines 1458-1492).  `idg`/`nidg` supply the `uuid4`
draws by row counter; the result is the database plus the final `existing`
list and the `added` and `skipped` counters. -/
def import_rows (prefs : Prefs) (skip_dups : Bool) (idg nidg : Nat → Str)
    (now : Nat) :
    Store → List CompanyRef → Nat → List CsvRow →
    Store × List CompanyRef × Nat × Nat
  | st, existing, _, [] => (st, existing, 0, 0)
  | st, existing, k, r :: rest =>
    let dup_id := import_dup r.name r.url existing
    if dup_id.isSome && skip_dups then
      let out := import_rows prefs skip_dups idg nidg now st existing (k + 1) rest
      (out.1, out.2.1, out.2.2.1, out.2.2.2 + 1)
    else
      let cid := idg k
      let payload := import_payload prefs r cid now
      let note := pyStrip r.notes
      let st' : Store :=
        { st with
          companies := st.companies ++ [payload]
          notes :=
            if note.isEmpty then st.notes
            else st.notes ++ [{ id := nidg k, company_id := cid, time := now,
                                text := note, starred := false,
                                category := str "General" : Note }] }
      let existing' := existing ++ [⟨cid, payload.name, payload.url⟩]
      let out := import_rows prefs skip_dups idg nidg now st' existing' (k + 1) rest
      (out.1, out.2.1, out.2.2.1 + 1, out.2.2.2)

/-- `import_csv` POST branch: seed `existing` from the companies table, then
run the loop; the flash message reports `added` and `skipped`. -/
def import_csv (st : Store) (prefs : Prefs) (skip_dups : Bool)
    (idg nidg : Nat → Str) (now : Nat) (rows : List CsvRow) :
    Store × Nat × Nat :=
  let existing := st.companies.map fun c => (⟨c.id, c.name, c.url⟩ : CompanyRef)
  let out := import_rows prefs skip_dups idg nidg now st existing 0 rows
  (out.1, out.2.2.1, out.2.2.2)

/-! ## Transition system over the mutating handlers (for the timestamp
invariant) -/

/-- One inbound mutating request. -/
inductive OpT where
  | op_add (prefs : Prefs) (form : AddForm) (cid nid : Str)
  | op_update (cid : Str) (form : UpdateForm)
  | op_api_status (cid status : Str)
  | op_note_add (cid note category : Str) (starred : Bool) (nid : Str)
  | op_star (cid nid : Str)
  | op_note_edit (cid nid text category : Str) (starred : Bool)
  | op_note_del (cid nid : Str)
  | op_del (cid : Str)
  | op_mass_del (ids : List Str)
  | op_import (prefs : Prefs) (skip_dups : Bool) (idg nidg : Nat → Str)
      (rows : List CsvRow)

/-- Dispatch of one request at wall-clock time `now`. -/
def step (st : Store) : OpT → Nat → Store
  | OpT.op_add prefs form cid nid, now => (add_company st prefs form cid nid now).1
  | OpT.op_update cid form, now => update_company st cid form now
  | OpT.op_api_status cid status, now => (api_update_status st cid status now).1
  | OpT.op_note_add cid note category starred nid, now =>
      add_note st cid note category starred nid now
  | OpT.op_star cid nid, now => toggle_star st cid nid now
  | OpT.op_note_edit cid nid text category starred, now =>
      edit_note st cid nid text category starred now
  | OpT.op_note_del cid nid, now => delete_note st cid nid now
  | OpT.op_del cid, _ => delete_company st cid
  | OpT.op_mass_del ids, _ => mass_delete st ids
  | OpT.op_import prefs skip_dups idg nidg rows, now =>
      (import_csv st prefs skip_dups idg nidg now rows).1

/-- Replay a request trace. -/
def run (st : Store) : List (OpT × Nat) → Store
  | [] => st
  | (op, now) :: rest => run (step st op now) rest

/-- The wall clock never runs backwards along a trace starting at `t`. -/
def Mono : Nat → List (OpT × Nat) → Prop
  | _, [] => True
  | t, (_, now) :: rest => t ≤ now ∧ Mono now rest

/-! ## Claim C9 -/

/-- C9: for every store, id and status outside `ALL_STATUSES`, the
status-update endpoint answers invalid-status and leaves the whole store
unchanged; the membership test runs before any lookup of the id, so a
nonexistent id with an invalid status still reports invalid-status, not
not-found. -/
theorem c9_invalid_status_is_checked_first (st : Store) (cid s : Str)
    (now : Nat) (h : s ∉ ALL_STATUSES) :
    api_update_status st cid s now = (st, ApiResult.invalid_status) := by
  simp [api_update_status, List.contains, h]

/-- C9 witness: a status outside the enumeration on a store where the id does
not exist either. -/
theorem c9_witness :
    (str "Bogus") ∉ ALL_STATUSES ∧
      api_update_status empty_store (str "c1") (str "Bogus") 5 =
        (empty_store, ApiResult.invalid_status) :=
  ⟨by decide, c9_invalid_status_is_checked_first empty_store (str "c1")
    (str "Bogus") 5 (by decide)⟩

/-! ## Claim C1 -/

/-- An `/add` POST supplying a status outside the enumeration. -/
def c1_form : AddForm :=
  { name := str "Acme", url := [], linkedin := [], email := [],
    type := [], owner := [], status := str "Bogus",
    contacted_email := false, contacted_url := false,
    contacted_linkedin := false, sources := [], notes := [] }

/-- C1 counterexample: `add_company` persists the status `"Bogus"`, which is
not a member of `ALL_STATUSES`; the write is not rejected. -/
theorem c1_counterexample :
    ((add_company empty_store ⟨[], []⟩ c1_form (str "c1") (str "n1") 0).1.companies.map
        Company.status) = [str "Bogus"] ∧
      (str "Bogus") ∉ ALL_STATUSES := by decide

/-- C1 amended: `add_company` stores whatever status the form supplies
(defaulting only an empty one to `"New"`) and `update_company` stores any
supplied status verbatim — neither validates membership in `ALL_STATUSES`;
only the `/api/update_status` endpoint rejects a status outside the
enumeration. -/
theorem c1_status_validation_amended :
    (∀ (st : Store) (prefs : Prefs) (form : AddForm) (cid nid : Str) (now : Nat),
      ∀ c ∈ (add_company st prefs form cid nid now).1.companies,
        c ∉ st.companies → c.status = pyOr form.status (str "New")) ∧
    (∀ (st : Store) (cid : Str) (form : UpdateForm) (now : Nat) (s : Str),
      form.status = some s →
      ∀ c ∈ (update_company st cid form now).companies,
        c.id = cid → c.status = s) ∧
    (∀ (st : Store) (cid s : Str) (now : Nat), s ∉ ALL_STATUSES →
      api_update_status st cid s now = (st, ApiResult.invalid_status)) := by
  refine ⟨?_, ?_, ?_⟩
  · intro st prefs form cid nid now c hc hnot
    simp only [add_company] at hc
    split at hc
    · exact absurd hc hnot
    · simp only [List.mem_append, List.mem_singleton] at hc
      rcases hc with hc | rfl
      · exact absurd hc hnot
      · rfl
  · intro st cid form now s hs c hc hid
    simp only [update_company, List.mem_map] at hc
    obtain ⟨a, ha, rfl⟩ := hc
    by_cases h : a.id == cid
    · simp [h, hs]
    · simp only [h, if_neg, Bool.false_eq_true, if_false] at hid ⊢
      exact absurd hid (by simpa using h)
  · intro st cid s now h
    simp [api_update_status, List.contains, h]

/-- C1 witness: the add clause applied to a concrete store and form, and the
api clause applied to a status outside the enumeration. -/
theorem c1_witness :
    (∀ c ∈ (add_company empty_store ⟨[], []⟩ c1_form (str "c1") (str "n1")
        0).1.companies,
      c ∉ empty_store.companies → c.status = pyOr c1_form.status (str "New")) ∧
    api_update_status empty_store (str "c1") (str "Bogus") 5 =
      (empty_store, ApiResult.invalid_status) :=
  ⟨c1_status_validation_amended.1 empty_store ⟨[], []⟩ c1_form (str "c1")
      (str "n1") 0,
   c1_status_validation_amended.2.2 empty_store (str "c1") (str "Bogus") 5
      (by decide)⟩

/-! ## Claim C6 -/

/-- A company parked in the `"Past Client"` status. -/
def c6_company : Company :=
  { id := str "c1", type := str "Agency", owner := str "Oskars",
    name := str "A", url := [], linkedin := [], email := [],
    contacted_email := false, contacted_url := false,
    contacted_linkedin := false, status := str "Past Client",
    created_at := 0, updated_at := 0 }

/-- C6 counterexample: `"Past Client"` is a member of the full enumeration but
of neither board enumeration, so a record holding it appears on neither the
lead board nor the partners board — the two named enumerations do not cover
`ALL_STATUSES`. -/
theorem c6_counterexample :
    (str "Past Client") ∈ ALL_STATUSES ∧
    (str "Past Client") ∉ LEAD_STATUSES ∧
    (str "Past Client") ∉ PARTNER_STATUSES ∧
    board_companies ⟨[c6_company], [], []⟩ = [] ∧
    partners_companies ⟨[c6_company], [], []⟩ = [] ∧
    (⟨[c6_company], [], []⟩ : Store).companies ≠ [] := by decide

/-- C6 amended: the lead and partner enumerations are disjoint, but they do
not cover `ALL_STATUSES`: the full enumeration additionally holds
`"Past Client"`.  Board membership is decided solely by the status — a record
is on the lead board iff its status is a lead stage and on the partners board
iff it is a partner stage — so a record whose status is in the full
enumeration is on at most one board, and on no board exactly when its status
is `"Past Client"`. -/
theorem c6_boards_amended :
    (∀ s ∈ LEAD_STATUSES, s ∉ PARTNER_STATUSES) ∧
    ALL_STATUSES = LEAD_STATUSES ++ PARTNER_STATUSES ++ [str "Past Client"] ∧
    (∀ (st : Store) (c : Company),
      c ∈ board_companies st ↔ c ∈ st.companies ∧ c.status ∈ LEAD_STATUSES) ∧
    (∀ (st : Store) (c : Company),
      c ∈ partners_companies st ↔
        c ∈ st.companies ∧ c.status ∈ PARTNER_STATUSES) ∧
    (∀ s ∈ ALL_STATUSES,
      ¬(s ∈ LEAD_STATUSES ∧ s ∈ PARTNER_STATUSES) ∧
      ((s ∉ LEAD_STATUSES ∧ s ∉ PARTNER_STATUSES) ↔ s = str "Past Client")) := by
  refine ⟨?_, rfl, ?_, ?_, ?_⟩
  · intro s hs
    simp only [LEAD_STATUSES, List.mem_cons, List.not_mem_nil, or_false] at hs
    rcases hs with rfl | rfl | rfl | rfl | rfl <;> decide
  · intro st c
    simp [board_companies, List.mem_filter, List.contains]
  · intro st c
    simp [partners_companies, List.mem_filter, List.contains]
  · intro s hs
    simp only [ALL_STATUSES, LEAD_STATUSES, PARTNER_STATUSES, List.append_assoc,
      List.mem_append, List.mem_cons, List.not_mem_nil, or_false] at hs
    rcases hs with (rfl | rfl | rfl | rfl | rfl) | (rfl | rfl | rfl | rfl | rfl) | rfl <;>
      decide

/-- C6 witness: the board-membership clause at a concrete store and the
disjointness clause at a concrete status. -/
theorem c6_witness :
    (str "New") ∉ PARTNER_STATUSES ∧
    { c6_company with status := str "Paused" } ∈
      partners_companies ⟨[{ c6_company with status := str "Paused" }], [], []⟩ :=
  ⟨c6_boards_amended.1 (str "New") (by decide),
   (c6_boards_amended.2.2.2.1
      ⟨[{ c6_company with status := str "Paused" }], [], []⟩
      { c6_company with status := str "Paused" }).mpr (by decide)⟩

/-! ## Claim C7 -/

/-- A store holding one company (stamped at time 5) and no notes at all. -/
def c7_store : Store :=
  ⟨[{ id := str "c1", type := str "Agency", owner := str "Oskars",
      name := str "A", url := [], linkedin := [], email := [],
      contacted_email := false, contacted_url := false,
      contacted_linkedin := false, status := str "New",
      created_at := 5, updated_at := 5 }], [], []⟩

/-- C7 counterexample: editing a note id that does not exist changes no note,
yet the parent record's `updated_at` jumps from 5 to 7 — the operation is not
a no-op on the parent record. -/
theorem c7_counterexample :
    (edit_note c7_store (str "c1") (str "n9") (str "t") (str "General")
        false 7).notes = c7_store.notes ∧
    ((edit_note c7_store (str "c1") (str "n9") (str "t") (str "General")
        false 7).companies.map Company.updated_at) = [7] ∧
    (c7_store.companies.map Company.updated_at) = [5] ∧
    c7_store.notes = [] := by decide

/-- C7 amended: with a note id that does not exist or belongs to another
record, `toggle_star` is a complete no-op, while `edit_note` and
`delete_note` leave the notes (and sources) unchanged but still refresh the
parent record's `updated_at` to the current time. -/
theorem c7_missing_note_amended :
    (∀ (st : Store) (cid nid : Str) (now : Nat),
      (∀ n ∈ st.notes, ¬(n.id = nid ∧ n.company_id = cid)) →
      toggle_star st cid nid now = st) ∧
    (∀ (st : Store) (cid nid text category : Str) (starred : Bool) (now : Nat),
      (∀ n ∈ st.notes, ¬(n.id = nid ∧ n.company_id = cid)) →
      (edit_note st cid nid text category starred now).notes = st.notes ∧
      (edit_note st cid nid text category starred now).companies =
        touch_company st.companies cid now ∧
      (edit_note st cid nid text category starred now).sources = st.sources) ∧
    (∀ (st : Store) (cid nid : Str) (now : Nat),
      (∀ n ∈ st.notes, ¬(n.id = nid ∧ n.company_id = cid)) →
      (delete_note st cid nid now).notes = st.notes ∧
      (delete_note st cid nid now).companies =
        touch_company st.companies cid now ∧
      (delete_note st cid nid now).sources = st.sources) := by
  refine ⟨?_, ?_, ?_⟩
  · intro st cid nid now h
    have hn : st.notes.find? (fun n => n.id == nid && n.company_id == cid) = none := by
      rw [List.find?_eq_none]
      intro n hmem
      simpa using h n hmem
    simp [toggle_star, hn]
  · intro st cid nid text category starred now h
    refine ⟨?_, rfl, rfl⟩
    have : ∀ n ∈ st.notes,
        (if n.id == nid && n.company_id == cid then
          { n with text := pyStrip text,
                   category := pyOr (pyStrip (pyOr category (str "General")))
                     (str "General"),
                   starred := starred }
         else n) = n := by
      intro n hmem
      have := h n hmem
      simp only [not_and] at this
      rw [if_neg]
      simp only [Bool.and_eq_true, beq_iff_eq, not_and]
      exact fun h1 h2 => this h1 h2
    calc (edit_note st cid nid text category starred now).notes
        = st.notes.map _ := rfl
      _ = st.notes.map id := List.map_congr_left (by simpa using this)
      _ = st.notes := List.map_id st.notes
  · intro st cid nid now h
    refine ⟨?_, rfl, rfl⟩
    show st.notes.filter _ = st.notes
    rw [List.filter_eq_self]
    intro n hmem
    have := h n hmem
    simp only [not_and] at this
    simp only [Bool.not_eq_eq_eq_not, Bool.not_true, Bool.and_eq_false_iff]
    by_cases h1 : n.id = nid
    · right
      simp [this h1]
    · left
      simp [h1]

/-- C7 witness: all three clauses applied to the concrete store with no
notes. -/
theorem c7_witness :
    toggle_star c7_store (str "c1") (str "n9") 7 = c7_store ∧
    (delete_note c7_store (str "c1") (str "n9") 7).notes = c7_store.notes :=
  ⟨c7_missing_note_amended.1 c7_store (str "c1") (str "n9") 7 (by decide),
   (c7_missing_note_amended.2.2 c7_store (str "c1") (str "n9") 7 (by decide)).1⟩

/-! ## Claim C2 -/

/-- The per-record test of the duplicate scan: name equality (under raw
non-emptiness of the candidate) or URL equality likewise. -/
def dup_hit (name url_ : Str) (c : Company) : Bool :=
  (!name.isEmpty && (norm_text name == norm_text c.name)) ||
  (!url_.isEmpty && (norm_url url_ == norm_url c.url))

/-- A company whose URL matches the candidate URL but whose name does not
match the candidate name. -/
def c2_url_company : Company :=
  { id := str "u1", type := str "Agency", owner := str "Oskars",
    name := str "x", url := str "acme.com", linkedin := [], email := [],
    contacted_email := false, contacted_url := false,
    contacted_linkedin := false, status := str "New",
    created_at := 0, updated_at := 0 }

/-- A later company whose name matches the candidate name. -/
def c2_name_company : Company :=
  { id := str "n1", type := str "Agency", owner := str "Oskars",
    name := str "acme", url := str "y", linkedin := [], email := [],
    contacted_email := false, contacted_url := false,
    contacted_linkedin := false, status := str "New",
    created_at := 0, updated_at := 0 }

/-- C2 counterexample: the store holds a URL-matching record before a
name-matching one; the scan returns the earlier URL match, not the name
match, so a name match anywhere in the store does not take priority over a
URL match on an earlier record. -/
theorem c2_counterexample :
    check_duplicate (str "Acme") (str "acme.com")
        [c2_url_company, c2_name_company] = some c2_url_company ∧
    norm_text (str "Acme") = norm_text c2_name_company.name ∧
    norm_text (str "Acme") ≠ norm_text c2_url_company.name ∧
    c2_url_company ≠ c2_name_company := by decide

/-- C2 amended: the detector performs a single pass and returns the first
record (in scan order) that matches by name or by URL, the name test being
tried before the URL test on each record; hence a URL match on an earlier
record wins over a name match on a later one, while a name match anywhere in
the store still guarantees some record is returned. -/
theorem c2_single_pass_amended :
    (∀ (name url_ : Str) (cs : List Company),
      check_duplicate name url_ cs = cs.find? (dup_hit name url_)) ∧
    (∀ (name url_ : Str) (cs : List Company) (c : Company), c ∈ cs →
      (!name.isEmpty && (norm_text name == norm_text c.name)) = true →
      (check_duplicate name url_ cs).isSome = true) := by
  constructor
  · intro name url_ cs
    induction cs with
    | nil => rfl
    | cons c rest ih =>
      by_cases h1 : (!name.isEmpty && (norm_text name == norm_text c.name)) = true
      · simp [check_duplicate, List.find?_cons, dup_hit, h1]
      · by_cases h2 : (!url_.isEmpty && (norm_url url_ == norm_url c.url)) = true
        · simp [check_duplicate, List.find?_cons, dup_hit, h1, h2]
        · simp only [check_duplicate, if_neg h1, if_neg h2, ih]
          rw [List.find?_cons_of_neg]
          simp [dup_hit, h1, h2]
  · intro name url_ cs c hmem hname
    induction cs with
    | nil => cases hmem
    | cons d rest ih =>
      rcases List.mem_cons.mp hmem with rfl | hmem'
      · simp [check_duplicate, hname]
      · by_cases h1 : (!name.isEmpty && (norm_text name == norm_text d.name)) = true
        · simp [check_duplicate, h1]
        · by_cases h2 : (!url_.isEmpty && (norm_url url_ == norm_url d.url)) = true
          · simp [check_duplicate, h1, h2]
          · simp only [check_duplicate, if_neg h1, if_neg h2]
            exact ih hmem'

/-- C2 witness: the scan-order clause at the concrete two-record store, and
the name-guarantee clause at a one-record store. -/
theorem c2_witness :
    check_duplicate (str "Acme") (str "acme.com")
        [c2_url_company, c2_name_company] =
      List.find? (dup_hit (str "Acme") (str "acme.com"))
        [c2_url_company, c2_name_company] ∧
    (check_duplicate (str "Acme") [] [c2_name_company]).isSome = true :=
  ⟨c2_single_pass_amended.1 (str "Acme") (str "acme.com")
      [c2_url_company, c2_name_company],
   c2_single_pass_amended.2 (str "Acme") [] [c2_name_company] c2_name_company
      (by decide) (by decide)⟩

/-! ## Claim C3 -/

/-- A company stored with an empty URL. -/
def c3_company : Company :=
  { id := str "e1", type := str "Agency", owner := str "Oskars",
    name := str "z", url := [], linkedin := [], email := [],
    contacted_email := false, contacted_url := false,
    contacted_linkedin := false, status := str "New",
    created_at := 0, updated_at := 0 }

/-- C3 counterexample: the candidate URL `"/"` is non-empty raw but
normalizes to the empty string, and the detector still reports the record
whose stored URL is empty as a duplicate — the guard is on the raw candidate
only, not on the normalized values. -/
theorem c3_counterexample :
    check_duplicate [] (str "/") [c3_company] = some c3_company ∧
    norm_url (str "/") = [] ∧
    c3_company.url = [] := by decide

/-- C3 amended: the emptiness guard of the URL test is Python truthiness of
the raw candidate string only.  With an empty candidate name and a non-empty
raw candidate URL, the scan reports a duplicate exactly when some stored
record's normalized URL equals the normalized candidate URL — the normalized
values being empty does not prevent a match, so a raw-non-empty candidate
normalizing to the empty string matches every record whose stored URL
normalizes to the empty string. -/
theorem c3_url_guard_amended (cs : List Company) (u : Str)
    (hu : ¬u.isEmpty) :
    (check_duplicate [] u cs).isSome = true ↔
      ∃ c ∈ cs, norm_url u = norm_url c.url := by
  induction cs with
  | nil => simp [check_duplicate]
  | cons c rest ih =>
    by_cases h : norm_url u = norm_url c.url
    · simp [check_duplicate, hu, h]
    · have hg : (!u.isEmpty && (norm_url u == norm_url c.url)) = false := by
        simp [h]
      simp only [check_duplicate, List.isEmpty_nil, Bool.not_true,
        Bool.false_and, Bool.and_self, if_false, hg, ih]
      constructor
      · intro hex
        obtain ⟨d, hd, he⟩ := ih.mp hex
        exact ⟨d, List.mem_cons_of_mem _ hd, he⟩
      · intro hex
        obtain ⟨d, hd, he⟩ := hex
        rcases List.mem_cons.mp hd with rfl | hd'
        · exact absurd he h
        · exact ih.mpr ⟨d, hd', he⟩

/-- C3 witness: the amended clause at the concrete empty-URL store and the
candidate `"/"`. -/
theorem c3_witness :
    ¬(str "/").isEmpty = true ∧
    ((check_duplicate [] (str "/") [c3_company]).isSome = true ↔
      ∃ c ∈ [c3_company], norm_url (str "/") = norm_url c.url) :=
  ⟨by decide, c3_url_guard_amended [c3_company] (str "/") (by decide)⟩

/-! ## String lemmas for the normalizers -/

theorem dropWhile_idem (p : Char → Bool) (l : Str) :
    (l.dropWhile p).dropWhile p = l.dropWhile p := by
  induction l with
  | nil => rfl
  | cons c t ih =>
    by_cases h : p c
    · simp [List.dropWhile_cons, h, ih]
    · simp [List.dropWhile_cons, h]

theorem lstrip_idem (s : Str) : lstrip (lstrip s) = lstrip s :=
  dropWhile_idem _ s

theorem rstrip_idem (s : Str) : rstrip (rstrip s) = rstrip s := by
  unfold rstrip
  rw [List.reverse_reverse, dropWhile_idem]

theorem head_not_ws_of_lstrip_eq {c : Char} {rest : Str}
    (h : lstrip (c :: rest) = c :: rest) : Char.isWhitespace c = false := by
  by_contra hc
  have hc' : Char.isWhitespace c = true := by simpa using hc
  have h2 : lstrip (c :: rest) = lstrip rest := by
    simp [lstrip, List.dropWhile_cons, hc']
  rw [h] at h2
  have h3 : (lstrip rest).length ≤ rest.length :=
    (List.dropWhile_suffix _).sublist.length_le
  have h4 := congrArg List.length h2
  simp only [List.length_cons] at h4
  omega

theorem rstrip_prefix (s : Str) : rstrip s <+: s := by
  have h := List.dropWhile_suffix (l := s.reverse) Char.isWhitespace
  have := List.reverse_prefix.mpr h
  simpa [rstrip] using this

theorem lstrip_rstrip (s : Str) (h : lstrip s = s) :
    lstrip (rstrip s) = rstrip s := by
  cases hr : rstrip s with
  | nil => rfl
  | cons c t =>
    have hpre : rstrip s <+: s := rstrip_prefix s
    rw [hr] at hpre
    obtain ⟨u, hu⟩ := hpre
    rw [List.cons_append] at hu
    have h' : lstrip (c :: (t ++ u)) = c :: (t ++ u) := by
      rw [hu]
      exact h
    have hhead : Char.isWhitespace c = false := head_not_ws_of_lstrip_eq h'
    simp [lstrip, List.dropWhile_cons, hhead]

theorem pyStrip_idem (s : Str) : pyStrip (pyStrip s) = pyStrip s := by
  unfold pyStrip
  rw [lstrip_rstrip (lstrip s) (lstrip_idem s), rstrip_idem]

theorem norm_text_pyStrip (s : Str) : norm_text (pyStrip s) = norm_text s := by
  unfold norm_text
  rw [pyStrip_idem]

theorem norm_url_pyStrip (s : Str) : norm_url (pyStrip s) = norm_url s := by
  unfold norm_url
  rw [pyStrip_idem]

theorem lstrip_append (x y : Str) (hx : lstrip x = x) (hy : lstrip y = y) :
    lstrip (x ++ y) = x ++ y := by
  cases x with
  | nil => simpa using hy
  | cons c t =>
    have hc := head_not_ws_of_lstrip_eq hx
    simp [lstrip, List.dropWhile_cons, hc]

theorem rstrip_append (x y : Str) (hy : rstrip y = y) (hne : y ≠ []) :
    rstrip (x ++ y) = x ++ y := by
  have hrev : y.reverse.dropWhile Char.isWhitespace = y.reverse := by
    have := congrArg List.reverse hy
    simpa [rstrip] using this
  unfold rstrip
  rw [List.reverse_append, List.dropWhile_append, hrev]
  have : y.reverse.isEmpty = false := by
    simp [List.isEmpty_iff, hne]
  rw [this]
  simp

theorem stripScheme_http (l : Str) : stripScheme (httpPref ++ l) = l := by
  have hpre : httpPref.isPrefixOf (httpPref ++ l) = true := by
    simp
  have h7 : httpPref.length = 7 := rfl
  simp only [stripScheme, hpre, if_true]
  exact List.drop_left' h7

theorem http_not_prefix_of_https (l : Str) :
    httpPref.isPrefixOf (httpsPref ++ l) = false := rfl

theorem stripScheme_https (l : Str) : stripScheme (httpsPref ++ l) = l := by
  have hpre : httpsPref.isPrefixOf (httpsPref ++ l) = true := by
    simp
  have h8 : httpsPref.length = 8 := rfl
  simp only [stripScheme, http_not_prefix_of_https, hpre, if_true,
    Bool.false_eq_true, if_false]
  exact List.drop_left' h8

theorem stripScheme_of_no_scheme (u : Str)
    (h1 : httpPref.isPrefixOf u = false) (h2 : httpsPref.isPrefixOf u = false) :
    stripScheme u = u := by
  simp [stripScheme, h1, h2]

theorem stripSlash_concat (l : Str) : stripSlash (l ++ [ '/' ]) = l := by
  simp [stripSlash, List.getLast?_concat]

theorem stripSlash_of_no_slash (l : Str) (h : l.getLast? ≠ some '/') :
    stripSlash l = l := by
  simp [stripSlash, h]

theorem isPrefixOf_concat_slash (p l : Str) (hp : p.isPrefixOf l = false)
    (hl : l.getLast? ≠ some '/') (hpp : p.dropLast.getLast? = some '/') :
    p.isPrefixOf (l ++ [ '/' ]) = false := by
  by_contra hcon
  have hpre : p <+: l ++ [ '/' ] := by
    have : p.isPrefixOf (l ++ [ '/' ]) = true := by
      simpa using hcon
    simpa using this
  rcases le_or_lt p.length l.length with hle | hlt
  · have : p <+: l :=
      List.prefix_of_prefix_length_le hpre (List.prefix_append l [ '/' ]) hle
    have h2 : p.isPrefixOf l = true := by simpa using this
    rw [hp] at h2
    exact Bool.false_ne_true h2
  · have hlen : p.length = (l ++ [ '/' ]).length := by
      have := hpre.length_le
      simp only [List.length_append, List.length_cons, List.length_nil] at this ⊢
      omega
    have heq : p = l ++ [ '/' ] := hpre.eq_of_length hlen
    have : l.getLast? = some '/' := by
      have hdl : p.dropLast = l := by
        rw [heq, List.dropLast_concat]
      rw [← hdl]
      exact hpp
    exact hl this

/-! ## Claim C4 -/

/-- C4 counterexample: slash stripping happens once, so the universally
quantified identity fails when `x` itself ends in a slash —
`norm_url ("a/" ++ "/") = "a/"` while `norm_url "a/" = "a"`. -/
theorem c4_counterexample :
    norm_url (str "a/" ++ [ '/' ]) ≠ norm_url (str "a/") := by decide

/-- C4 amended: the spec's concrete normalization examples all hold, and the
scheme/trailing-slash identities hold universally once the argument is
already trimmed, carries no scheme of its own (after lowercasing) and does
not already end in a slash — the normalizer strips one scheme and one
trailing slash only, after trimming and lowercasing, so the unrestricted
identities fail. -/
theorem c4_normalization_amended :
    norm_text (str "Acme Inc") = norm_text (str "  acme inc ") ∧
    norm_url (str "https://Acme.com/") = norm_url (str "acme.com") ∧
    norm_url (str "http://acme.com") = norm_url (str "https://acme.com/") ∧
    (∀ x : Str, lstrip x = x → rstrip x = x →
      httpPref.isPrefixOf (pyLower x) = false →
      httpsPref.isPrefixOf (pyLower x) = false →
      (pyLower x).getLast? ≠ some '/' →
      norm_url (httpPref ++ x) = norm_url x ∧
      norm_url (httpsPref ++ x) = norm_url x ∧
      norm_url (x ++ [ '/' ]) = norm_url x) := by
  refine ⟨by decide, by decide, by decide, ?_⟩
  intro x hl hr hh hhs hsl
  have hs : pyStrip x = x := by
    unfold pyStrip
    rw [hl, hr]
  have hrhs : norm_url x = stripSlash (pyLower x) := by
    unfold norm_url
    rw [hs, stripScheme_of_no_scheme _ hh hhs]
  refine ⟨?_, ?_, ?_⟩
  · by_cases hx : x = []
    · subst hx
      simp only [List.append_nil]
      rw [hrhs]
      decide
    · have hstrip : pyStrip (httpPref ++ x) = httpPref ++ x := by
        unfold pyStrip
        rw [lstrip_append httpPref x (by decide) hl]
        exact rstrip_append httpPref x hr hx
      have hlow : pyLower (httpPref ++ x) = httpPref ++ pyLower x := by
        unfold pyLower
        rw [List.map_append,
          (by decide : List.map Char.toLower httpPref = httpPref)]
      have hmain : norm_url (httpPref ++ x) = stripSlash (pyLower x) := by
        unfold norm_url
        rw [hstrip, hlow, stripScheme_http]
      rw [hmain, hrhs]
  · by_cases hx : x = []
    · subst hx
      simp only [List.append_nil]
      rw [hrhs]
      decide
    · have hstrip : pyStrip (httpsPref ++ x) = httpsPref ++ x := by
        unfold pyStrip
        rw [lstrip_append httpsPref x (by decide) hl]
        exact rstrip_append httpsPref x hr hx
      have hlow : pyLower (httpsPref ++ x) = httpsPref ++ pyLower x := by
        unfold pyLower
        rw [List.map_append,
          (by decide : List.map Char.toLower httpsPref = httpsPref)]
      have hmain : norm_url (httpsPref ++ x) = stripSlash (pyLower x) := by
        unfold norm_url
        rw [hstrip, hlow, stripScheme_https]
      rw [hmain, hrhs]
  · have hstrip : pyStrip (x ++ [ '/' ]) = x ++ [ '/' ] := by
      unfold pyStrip
      rw [lstrip_append x [ '/' ] hl (by decide)]
      exact rstrip_append x [ '/' ] (by decide) (by decide)
    have hlow : pyLower (x ++ [ '/' ]) = pyLower x ++ [ '/' ] := by
      unfold pyLower
      rw [List.map_append,
        (by decide : List.map Char.toLower [ '/' ] = [ '/' ])]
    have hns1 : httpPref.isPrefixOf (pyLower x ++ [ '/' ]) = false :=
      isPrefixOf_concat_slash httpPref (pyLower x) hh hsl (by decide)
    have hns2 : httpsPref.isPrefixOf (pyLower x ++ [ '/' ]) = false :=
      isPrefixOf_concat_slash httpsPref (pyLower x) hhs hsl (by decide)
    have hmain : norm_url (x ++ [ '/' ]) = pyLower x := by
      unfold norm_url
      rw [hstrip, hlow, stripScheme_of_no_scheme _ hns1 hns2, stripSlash_concat]
    rw [hmain, hrhs, stripSlash_of_no_slash _ hsl]

/-- C4 witness: the conditional identities applied at the trimmed,
scheme-free, slash-free string `"acme.com"`. -/
theorem c4_witness :
    norm_url (httpPref ++ str "acme.com") = norm_url (str "acme.com") :=
  (c4_normalization_amended.2.2.2 (str "acme.com") (by decide) (by decide)
    (by decide) (by decide) (by decide)).1

/-! ## Claim C10 -/

theorem import_rows_counts (prefs : Prefs) (idg nidg : Nat → Str) (now : Nat)
    (rows : List CsvRow) :
    ∀ (st : Store) (ex : List CompanyRef) (k : Nat),
      (import_rows prefs true idg nidg now st ex k rows).2.2.1 +
        (import_rows prefs true idg nidg now st ex k rows).2.2.2 =
        rows.length := by
  induction rows with
  | nil =>
    intro st ex k
    rfl
  | cons r rest ih =>
    intro st ex k
    cases h : (import_dup r.name r.url ex).isSome with
    | true =>
      simp only [import_rows, h, Bool.and_self, if_true, List.length_cons]
      have := ih st ex (k + 1)
      omega
    | false =>
      simp only [import_rows, h, Bool.false_and, Bool.false_eq_true, if_false,
        List.length_cons]
      have := ih
        ({ st with
           companies := st.companies ++ [import_payload prefs r (idg k) now]
           notes :=
             if (pyStrip r.notes).isEmpty then st.notes
             else st.notes ++ [{ id := nidg k, company_id := idg k, time := now,
                                 text := pyStrip r.notes, starred := false,
                                 category := str "General" : Note }] })
        (ex ++ [⟨idg k, (import_payload prefs r (idg k) now).name,
                (import_payload prefs r (idg k) now).url⟩]) (k + 1)
      omega

/-- C10: with duplicate-skipping on, every parsed row is either added or
skipped, so added + skipped equals the number of parsed rows; and rows added
earlier in the same file take part in the duplicate check of later rows: a
two-row file whose rows share a normalized name, and likewise one whose rows
share a normalized URL (the second row's raw field non-empty), creates
exactly one record, counting one added and one skipped. -/
theorem c10_import_dedup :
    (∀ (st : Store) (prefs : Prefs) (idg nidg : Nat → Str) (now : Nat)
        (rows : List CsvRow),
      (import_csv st prefs true idg nidg now rows).2.1 +
        (import_csv st prefs true idg nidg now rows).2.2 = rows.length) ∧
    (∀ (prefs : Prefs) (idg nidg : Nat → Str) (now : Nat) (r1 r2 : CsvRow),
      r2.name ≠ [] → norm_text r1.name = norm_text r2.name →
      (import_csv empty_store prefs true idg nidg now [r1, r2]).2.1 = 1 ∧
      (import_csv empty_store prefs true idg nidg now [r1, r2]).2.2 = 1 ∧
      (import_csv empty_store prefs true idg nidg now
          [r1, r2]).1.companies.length = 1) ∧
    (∀ (prefs : Prefs) (idg nidg : Nat → Str) (now : Nat) (r1 r2 : CsvRow),
      r2.url ≠ [] → norm_url r1.url = norm_url r2.url →
      (import_csv empty_store prefs true idg nidg now [r1, r2]).2.1 = 1 ∧
      (import_csv empty_store prefs true idg nidg now [r1, r2]).2.2 = 1 ∧
      (import_csv empty_store prefs true idg nidg now
          [r1, r2]).1.companies.length = 1) := by
  refine ⟨?_, ?_, ?_⟩
  · intro st prefs idg nidg now rows
    exact import_rows_counts prefs idg nidg now rows st _ 0
  · intro prefs idg nidg now r1 r2 hne hnorm
    have hb2 : norm_text (pyStrip r1.name) = norm_text r2.name := by
      rw [norm_text_pyStrip, hnorm]
    refine ⟨?_, ?_, ?_⟩ <;>
      simp [import_csv, import_rows, import_dup, import_payload, hne, hb2,
        empty_store]
  · intro prefs idg nidg now r1 r2 hne hnorm
    have hb2 : norm_url (pyStrip r1.url) = norm_url r2.url := by
      rw [norm_url_pyStrip, hnorm]
    by_cases hn1 : r2.name = [] <;>
      by_cases hn2 : norm_text (pyStrip r1.name) = norm_text r2.name <;>
      (refine ⟨?_, ?_, ?_⟩ <;>
        simp [import_csv, import_rows, import_dup, import_payload, hne, hb2,
          hn1, hn2, empty_store])

/-- C10 witness: a concrete two-row file sharing a normalized name (`"Acme"`
then `"ACME "`), and another sharing a normalized URL (`"Acme.com/"` then
`"http://acme.com"` under distinct names), both against the empty store. -/
theorem c10_witness :
    (import_csv empty_store ⟨[], []⟩ true (fun _ => str "i") (fun _ => str "n")
        0 [⟨str "Acme", [], [], [], [], [], [], []⟩,
           ⟨str "ACME ", [], [], [], [], [], [], []⟩]).2.1 = 1 ∧
    (import_csv empty_store ⟨[], []⟩ true (fun _ => str "i") (fun _ => str "n")
        0 [⟨str "Acme", [], [], [], [], [], [], []⟩,
           ⟨str "ACME ", [], [], [], [], [], [], []⟩]).2.2 = 1 ∧
    (import_csv empty_store ⟨[], []⟩ true (fun _ => str "i") (fun _ => str "n")
        0 [⟨str "A", str "Acme.com/", [], [], [], [], [], []⟩,
           ⟨str "B", str "http://acme.com", [], [], [], [], [], []⟩]).2.2 = 1 :=
  ⟨(c10_import_dedup.2.1 ⟨[], []⟩ (fun _ => str "i") (fun _ => str "n") 0
      ⟨str "Acme", [], [], [], [], [], [], []⟩
      ⟨str "ACME ", [], [], [], [], [], [], []⟩ (by decide) (by decide)).1,
   (c10_import_dedup.2.1 ⟨[], []⟩ (fun _ => str "i") (fun _ => str "n") 0
      ⟨str "Acme", [], [], [], [], [], [], []⟩
      ⟨str "ACME ", [], [], [], [], [], [], []⟩ (by decide) (by decide)).2.1,
   (c10_import_dedup.2.2 ⟨[], []⟩ (fun _ => str "i") (fun _ => str "n") 0
      ⟨str "A", str "Acme.com/", [], [], [], [], [], []⟩
      ⟨str "B", str "http://acme.com", [], [], [], [], [], []⟩ (by decide)
      (by decide)).2.1⟩

/-! ## Claim C8 -/

/-- Timestamp soundness of one company row relative to clock `t`. -/
def GoodCo (t : Nat) (c : Company) : Prop :=
  c.created_at ≤ c.updated_at ∧ c.updated_at ≤ t

theorem GoodCo_mono {t now : Nat} {c : Company} (hle : t ≤ now)
    (h : GoodCo t c) : GoodCo now c :=
  ⟨h.1, le_trans h.2 hle⟩

theorem touch_good (cs : List Company) (cid : Str) (now : Nat)
    (h : ∀ c ∈ cs, GoodCo now c) :
    ∀ c ∈ touch_company cs cid now, GoodCo now c := by
  intro c hc
  simp only [touch_company, List.mem_map] at hc
  obtain ⟨a, ha, rfl⟩ := hc
  by_cases hid : (a.id == cid) = true
  · simp only [hid, if_true]
    exact ⟨le_trans (h a ha).1 (h a ha).2, le_refl now⟩
  · simp only [hid, Bool.false_eq_true, if_false]
    exact h a ha

theorem import_rows_good (prefs : Prefs) (skip : Bool) (idg nidg : Nat → Str)
    (now : Nat) (rows : List CsvRow) :
    ∀ (st : Store) (ex : List CompanyRef) (k : Nat),
      (∀ c ∈ st.companies, GoodCo now c) →
      ∀ c ∈ (import_rows prefs skip idg nidg now st ex k rows).1.companies,
        GoodCo now c := by
  induction rows with
  | nil =>
    intro st ex k h c hc
    exact h c hc
  | cons r rest ih =>
    intro st ex k h c hc
    cases hg : ((import_dup r.name r.url ex).isSome && skip) with
    | true =>
      simp only [import_rows, hg, if_true] at hc
      exact ih st ex (k + 1) h c hc
    | false =>
      simp only [import_rows, hg, Bool.false_eq_true, if_false] at hc
      refine ih _ _ (k + 1) ?_ c hc
      intro d hd
      simp only [List.mem_append, List.mem_singleton] at hd
      rcases hd with hd | rfl
      · exact h d hd
      · exact ⟨le_refl now, le_refl now⟩

theorem step_good (st : Store) (op : OpT) (t now : Nat)
    (h : ∀ c ∈ st.companies, GoodCo t c) (hle : t ≤ now) :
    ∀ c ∈ (step st op now).companies, GoodCo now c := by
  have hW : ∀ c ∈ st.companies, GoodCo now c :=
    fun c hc => GoodCo_mono hle (h c hc)
  cases op with
  | op_add prefs form cid nid =>
    intro c hc
    simp only [step, add_company] at hc
    split at hc
    · exact hW c hc
    · simp only [List.mem_append, List.mem_singleton] at hc
      rcases hc with hc | rfl
      · exact hW c hc
      · exact ⟨le_refl now, le_refl now⟩
  | op_update cid form =>
    intro c hc
    simp only [step, update_company, List.mem_map] at hc
    obtain ⟨a, ha, rfl⟩ := hc
    by_cases hid : (a.id == cid) = true
    · simp only [hid, if_true]
      exact ⟨le_trans (hW a ha).1 (hW a ha).2, le_refl now⟩
    · simp only [hid, Bool.false_eq_true, if_false]
      exact hW a ha
  | op_api_status cid status =>
    intro c hc
    simp only [step, api_update_status] at hc
    split at hc
    · exact hW c hc
    · simp only [List.mem_map] at hc
      obtain ⟨a, ha, rfl⟩ := hc
      by_cases hid : (a.id == cid) = true
      · simp only [hid, if_true]
        exact ⟨le_trans (hW a ha).1 (hW a ha).2, le_refl now⟩
      · simp only [hid, Bool.false_eq_true, if_false]
        exact hW a ha
  | op_note_add cid note category starred nid =>
    intro c hc
    simp only [step, add_note] at hc
    split at hc
    · exact hW c hc
    · exact touch_good st.companies cid now hW c hc
  | op_star cid nid =>
    intro c hc
    simp only [step, toggle_star] at hc
    split at hc
    · exact hW c hc
    · exact touch_good st.companies cid now hW c hc
  | op_note_edit cid nid text category starred =>
    intro c hc
    simp only [step, edit_note] at hc
    exact touch_good st.companies cid now hW c hc
  | op_note_del cid nid =>
    intro c hc
    simp only [step, delete_note] at hc
    exact touch_good st.companies cid now hW c hc
  | op_del cid =>
    intro c hc
    simp only [step, delete_company] at hc
    exact hW c (List.mem_of_mem_filter hc)
  | op_mass_del ids =>
    intro c hc
    simp only [step, mass_delete] at hc
    exact hW c (List.mem_of_mem_filter hc)
  | op_import prefs skip idg nidg rows =>
    intro c hc
    simp only [step, import_csv] at hc
    exact import_rows_good prefs skip idg nidg now rows st _ 0 hW c hc

theorem run_created_le : ∀ (tr : List (OpT × Nat)) (st : Store) (t : Nat),
    (∀ c ∈ st.companies, GoodCo t c) → Mono t tr →
    ∀ c ∈ (run st tr).companies, c.created_at ≤ c.updated_at := by
  intro tr
  induction tr with
  | nil =>
    intro st t h _ c hc
    exact (h c hc).1
  | cons p rest ih =>
    intro st t h hm
    obtain ⟨op, now⟩ := p
    obtain ⟨hle, hm'⟩ := hm
    exact ih (step st op now) now (step_good st op t now h hle) hm'

/-- C8: a freshly created company carries `created_at = updated_at = now`,
and along any trace of requests whose wall-clock times never decrease,
starting from the empty database, every company always satisfies
`created_at ≤ updated_at` — every accepted mutation stamps `updated_at`
with the current time, which is never older than the creation time. -/
theorem c8_timestamp_invariant :
    (∀ (st : Store) (prefs : Prefs) (form : AddForm) (cid nid : Str) (now : Nat),
      ∀ c ∈ (add_company st prefs form cid nid now).1.companies,
        c ∉ st.companies → c.created_at = now ∧ c.updated_at = now) ∧
    (∀ tr : List (OpT × Nat), Mono 0 tr →
      ∀ c ∈ (run empty_store tr).companies,
        c.created_at ≤ c.updated_at) := by
  constructor
  · intro st prefs form cid nid now c hc hnot
    simp only [add_company] at hc
    split at hc
    · exact absurd hc hnot
    · simp only [List.mem_append, List.mem_singleton] at hc
      rcases hc with hc | rfl
      · exact absurd hc hnot
      · exact ⟨rfl, rfl⟩
  · intro tr hm
    exact run_created_le tr empty_store 0 (by intro c hc; cases hc) hm

/-- C8 witness: a concrete monotone trace — add a company at time 3, edit its
status via the API at time 5 — keeps `created_at ≤ updated_at`. -/
theorem c8_witness :
    ∀ c ∈ (run empty_store
        [(OpT.op_add ⟨[], []⟩ c1_form (str "c1") (str "n1"), 3),
         (OpT.op_api_status (str "c1") (str "New"), 5)]).companies,
      c.created_at ≤ c.updated_at :=
  c8_timestamp_invariant.2
    [(OpT.op_add ⟨[], []⟩ c1_form (str "c1") (str "n1"), 3),
     (OpT.op_api_status (str "c1") (str "New"), 5)]
    ⟨by omega, by omega, trivial⟩

/-! ## Claim C5 -/

theorem py_in_iff (q s : Str) : py_in q s = true ↔ q <:+: s := by
  induction s with
  | nil => simp [py_in]
  | cons c s ih => simp [py_in, ih, List.infix_cons_iff]

theorem prefix_split {q a b : Str} {s : Char} (hs : s ∉ q)
    (h : q <+: a ++ s :: b) : q <+: a := by
  rcases le_or_lt q.length a.length with hle | hlt
  · exact List.prefix_of_prefix_length_le h (List.prefix_append a (s :: b)) hle
  · exfalso
    have hlen : a.length < (a ++ s :: b).length := by
      simp [List.length_append]
    have h1 : q.get ⟨a.length, hlt⟩ = (a ++ s :: b).get ⟨a.length, hlen⟩ :=
      h.getElem hlt
    have h2 : (a ++ s :: b).get ⟨a.length, hlen⟩ = s := by
      show (a ++ s :: b)[a.length] = s
      rw [List.getElem_append_right (Nat.le_refl a.length)]
      simp
    have h3 : s ∈ q := by
      rw [← h1.trans h2]
      exact List.getElem_mem hlt
    exact hs h3

theorem infix_split {q b : Str} {s : Char} (hs : s ∉ q) :
    ∀ a : Str, q <:+: a ++ s :: b → q <:+: a ∨ q <:+: b := by
  intro a
  induction a with
  | nil =>
    intro h
    rw [List.nil_append] at h
    rcases List.infix_cons_iff.mp h with hp | hi
    · cases q with
      | nil => exact Or.inl List.nil_infix
      | cons c q' =>
        obtain ⟨rfl, -⟩ := List.cons_prefix_cons.mp hp
        exact absurd (List.mem_cons_self c q') hs
    · exact Or.inr hi
  | cons x a' ih =>
    intro h
    rw [List.cons_append] at h
    rcases List.infix_cons_iff.mp h with hp | hi
    · cases q with
      | nil => exact Or.inl List.nil_infix
      | cons c q' =>
        obtain ⟨rfl, hq'⟩ := List.cons_prefix_cons.mp hp
        have hs' : s ∉ q' := fun hmem => hs (List.mem_cons_of_mem _ hmem)
        have hpre : q' <+: a' := prefix_split hs' hq'
        exact Or.inl (List.cons_prefix_cons.mpr ⟨rfl, hpre⟩).isInfix
    · rcases ih hi with h1 | h2
      · exact Or.inl (h1.trans (List.infix_cons (List.infix_refl a')))
      · exact Or.inr h2

theorem infix_joinSp {q : Str} (hs : ' ' ∉ q) :
    ∀ (fs : List Str) (f : Str),
      q <:+: joinSp (f :: fs) ↔ ∃ g ∈ f :: fs, q <:+: g := by
  intro fs
  induction fs with
  | nil =>
    intro f
    simp [joinSp]
  | cons g fs ih =>
    intro f
    constructor
    · intro h
      simp only [joinSp] at h
      rcases infix_split hs f h with h1 | h2
      · exact ⟨f, List.mem_cons_self f _, h1⟩
      · obtain ⟨g', hg', hq⟩ := (ih g).mp h2
        exact ⟨g', List.mem_cons_of_mem f hg', hq⟩
    · rintro ⟨g', hg', hq⟩
      simp only [joinSp]
      rcases List.mem_cons.mp hg' with rfl | hmem
      · exact hq.trans (List.prefix_append g' _).isInfix
      · have hrec := (ih g).mpr ⟨g', hmem, hq⟩
        exact hrec.trans
          ((List.suffix_cons ' ' _).trans (List.suffix_append f _)).isInfix

theorem mem_infix_joinSp : ∀ (fs : List Str) (f : Str), f ∈ fs →
    f <:+: joinSp fs := by
  intro fs
  induction fs with
  | nil =>
    intro f h
    cases h
  | cons g fs ih =>
    intro f h
    rcases List.mem_cons.mp h with rfl | h'
    · cases fs with
      | nil => exact List.infix_refl f
      | cons g' fs' => exact (List.prefix_append f _).isInfix
    · cases fs with
      | nil => cases h'
      | cons g' fs' =>
        exact (ih f h').trans
          ((List.suffix_cons ' ' _).trans (List.suffix_append g _)).isInfix

/-- A record whose only non-empty fields are `name = "ab"` and `url = "cd"`. -/
def c5_company : Company :=
  { id := str "c1", type := [], owner := [], name := str "ab",
    url := str "cd", linkedin := [], email := [],
    contacted_email := false, contacted_url := false,
    contacted_linkedin := false, status := [],
    created_at := 0, updated_at := 0 }

/-- C5 counterexample: the query `"b c"` spans the boundary between the
concatenated name and url fields, so the record is returned by the filter
even though `"b c"` is a substring of none of the six individual fields. -/
theorem c5_counterexample :
    c5_company ∈ list_filter (str "b c") [c5_company] ∧
    (∀ f ∈ fields c5_company,
      py_in (pyLower (pyStrip (str "b c"))) f = false) := by decide

/-- C5 amended: the filter tests the query against the space-joined
concatenation of the six lowercased fields.  Every record with the query as
substring of a single field is returned; and when the query contains no
space character the filter is exact — a record is returned iff the query is
a substring of at least one individual field — but a query containing a
space can additionally match across a field boundary. -/
theorem c5_list_filter_amended :
    (∀ (q_raw : Str) (items : List Company) (c : Company),
      c ∈ items →
      (∃ f ∈ fields c, py_in (pyLower (pyStrip q_raw)) f = true) →
      c ∈ list_filter q_raw items) ∧
    (∀ (q_raw : Str) (items : List Company) (c : Company),
      ' ' ∉ pyLower (pyStrip q_raw) →
      (pyLower (pyStrip q_raw)).isEmpty = false →
      (c ∈ list_filter q_raw items ↔
        c ∈ items ∧
        ∃ f ∈ fields c, py_in (pyLower (pyStrip q_raw)) f = true)) := by
  constructor
  · intro q_raw items c hc hex
    obtain ⟨f, hf, hpy⟩ := hex
    by_cases hq : (pyLower (pyStrip q_raw)).isEmpty
    · simp [list_filter, hq, hc]
    · simp only [list_filter, hq, Bool.false_eq_true, if_false]
      refine List.mem_filter.mpr ⟨hc, ?_⟩
      show py_in _ (hay c) = true
      rw [py_in_iff]
      exact ((py_in_iff _ f).mp hpy).trans (mem_infix_joinSp (fields c) f hf)
  · intro q_raw items c hsp hne
    simp only [list_filter, hne, Bool.false_eq_true, if_false]
    rw [List.mem_filter]
    have key : match_fn (pyLower (pyStrip q_raw)) c = true ↔
        ∃ f ∈ fields c, py_in (pyLower (pyStrip q_raw)) f = true := by
      rw [match_fn, py_in_iff, hay,
        show fields c = pyLower c.name ::
          [pyLower c.url, pyLower c.email, pyLower c.owner,
           pyLower c.type, pyLower c.status] from rfl,
        infix_joinSp hsp]
      constructor
      · rintro ⟨g, hg, h⟩
        exact ⟨g, hg, (py_in_iff _ g).mpr h⟩
      · rintro ⟨g, hg, h⟩
        exact ⟨g, hg, (py_in_iff _ g).mp h⟩
    rw [key]

/-- C5 witness: the exactness clause applied to the space-free query `"AB"`
over a one-record store. -/
theorem c5_witness :
    c5_company ∈ list_filter (str "AB") [c5_company] ↔
      c5_company ∈ [c5_company] ∧
      ∃ f ∈ fields c5_company,
        py_in (pyLower (pyStrip (str "AB"))) f = true :=
  c5_list_filter_amended.2 (str "AB") [c5_company] c5_company (by decide)
    (by decide)
